import Mathlib

/-!
Verification of the CHIP-8 interpreter core (backend.rs) of the dorustos
repository, against its natural-language specification.

The machine state and every operation below are shallow embeddings of the
Rust source in src/backend.rs.  Machine integers (u8, u16) are modelled as
Nat with explicit wraparound (mod 256 / mod 65536) exactly where the Rust
code performs wrapping arithmetic; the release-profile wrapping semantics
is used for the unchecked u16 increments of the program counter.  Fixed
arrays (ram, screen, v_reg, stack, keys) are modelled as total functions
from Nat; the Rust code indexes them without bounds checks (the spec, in
section 7, calls these accesses unchecked and relies on well-formed ROMs),
so theorems that depend on in-range accesses carry explicit in-range
hypotheses.  The one bounds check the source does perform before mutating
anything - the slice bound in Chip8::load - is modelled explicitly.
-/

/-- Pointwise update of a total function, modelling a single array store
such as self.ram[i] = v in the Rust source. -/
def setf {α : Type} (f : Nat → α) (i : Nat) (v : α) : Nat → α :=
  fun j => if j = i then v else f j

/-- Fontset of the machine, the 80 byte constant FONTSET in backend.rs. -/
def FONTSET : List Nat :=
  [0xF0, 0x90, 0x90, 0x90, 0xF0,
   0x20, 0x60, 0x20, 0x20, 0x70,
   0xF0, 0x10, 0xF0, 0x80, 0xF0,
   0xF0, 0x10, 0xF0, 0x10, 0xF0,
   0x90, 0x90, 0xF0, 0x10, 0x10,
   0xF0, 0x80, 0xF0, 0x10, 0xF0,
   0xF0, 0x80, 0xF0, 0x90, 0xF0,
   0xF0, 0x10, 0x20, 0x40, 0x40,
   0xF0, 0x90, 0xF0, 0x90, 0xF0,
   0xF0, 0x90, 0xF0, 0x10, 0xF0,
   0xF0, 0x90, 0xF0, 0x90, 0x90,
   0xE0, 0x90, 0xE0, 0x90, 0xE0,
   0xF0, 0x80, 0x80, 0x80, 0xF0,
   0xE0, 0x90, 0x90, 0x90, 0xE0,
   0xF0, 0x80, 0xF0, 0x80, 0xF0,
   0xF0, 0x80, 0xF0, 0x80, 0x80]

/-- Machine state of the CHIP-8 virtual machine, the struct Chip8 in
backend.rs.  Field names follow the source.  pc, i_reg, sp and the stack
cells are u16 values, ram and v_reg cells are u8 values, screen and keys
are the boolean pixel and key arrays. -/
structure Chip8 where
  pc : Nat
  ram : Nat → Nat
  screen : Nat → Bool
  v_reg : Nat → Nat
  i_reg : Nat
  sp : Nat
  stack : Nat → Nat
  keys : Nat → Bool
  dt : Nat
  st : Nat

/-- Initial machine, Chip8::new(): everything zeroed, pc at 0x200, and the
fontset copied to the bottom of ram (addresses 0 to 79; all other ram
cells are 0, which List.getD with default 0 gives directly). -/
def chip8New : Chip8 :=
  { pc := 0x200
    ram := fun a => FONTSET.getD a 0
    screen := fun _ => false
    v_reg := fun _ => 0
    i_reg := 0
    sp := 0
    stack := fun _ => 0
    keys := fun _ => false
    dt := 0
    st := 0 }

/-- Push onto the call stack, Chip8::push: stores the value at the current
stack pointer and increments the pointer. -/
def push (s : Chip8) (val : Nat) : Chip8 :=
  { s with stack := setf s.stack s.sp val, sp := s.sp + 1 }

/-- Pop from the call stack, Chip8::pop: decrements the stack pointer and
returns the value found there, together with the new state. -/
def pop (s : Chip8) : Chip8 × Nat :=
  let sp' := s.sp - 1
  ({ s with sp := sp' }, s.stack sp')

/-- Scan of the keypad used by opcode FX0A: the Rust loop
for i in 0..self.keys.len() that breaks at the first pressed key.
The fuel argument counts the remaining iterations (16 at the start). -/
def findKeyAux (keys : Nat → Bool) : Nat → Nat → Option Nat
  | _, 0 => none
  | i, fuel + 1 => if keys i = true then some i else findKeyAux keys (i + 1) fuel

/-- Index of the first pressed key, scanning indices 0 to 15 upward. -/
def findFirstKey (keys : Nat → Bool) : Option Nat :=
  findKeyAux keys 0 16

/-- Inner loop of the DXYN draw opcode: one sprite row.  pixels is the row
byte, xc the x coordinate (Vx), yv the unwrapped row coordinate
(Vy + y_line); the list enumerates the remaining column offsets x_line.
For each set bit the target pixel index is computed with wraparound and
XOR-toggled, and the flipped flag records whether a lit pixel was hit
(read before the toggle, as in the source). -/
def drawBits (screen : Nat → Bool) (flipped : Bool) (pixels xc yv : Nat) :
    List Nat → (Nat → Bool) × Bool
  | [] => (screen, flipped)
  | c :: rest =>
    if pixels &&& (128 >>> c) ≠ 0 then
      let x := (xc + c) % 64
      let y := yv % 32
      let idx := x + 64 * y
      drawBits (setf screen idx (! screen idx)) (flipped || screen idx) pixels xc yv rest
    else
      drawBits screen flipped pixels xc yv rest

/-- Outer loop of the DXYN draw opcode: the remaining row offsets y_line.
Each row byte is read from ram at i_reg + y_line. -/
def drawRows (ram : Nat → Nat) (screen : Nat → Bool) (flipped : Bool) (i xc yc : Nat) :
    List Nat → (Nat → Bool) × Bool
  | [] => (screen, flipped)
  | r :: rest =>
    let pixels := ram (i + r)
    let p := drawBits screen flipped pixels xc (yc + r) (List.range 8)
    drawRows ram p.1 p.2 i xc yc rest

/-- Decode and execute one instruction word, Chip8::execute.  The Rust
match over the four nibbles (digit1, digit2, digit3, digit4) is rendered
as a first-match chain of condition tests in source order; the arms are
mutually exclusive, so the meaning is identical.  The final catch-all arm
of the source calls the unimplemented! macro and aborts the process; this
fatal decode fault is modelled as the result none.  rng models the byte
drawn from the external random source in the CXNN arm.  The BCD arm FX33
is the exact integer meaning of the source's f32 computation: for a u8
value vx, (vx as f32 * 100.0).floor() as u8 is min (vx * 100) 255 (all
intermediate f32 values up to 25500 are exact integers and the as-u8 cast
saturates at 255), ((vx as f32 * 10.0) % 10.0).floor() as u8 is
vx * 10 % 10, and (vx as f32 % 10.0) as u8 is vx % 10. -/
def execute (s : Chip8) (rng : Nat) (op : Nat) : Option Chip8 :=
  let d1 := op / 4096 % 16
  let d2 := op / 256 % 16
  let d3 := op / 16 % 16
  let d4 := op % 16
  if d1 = 0 ∧ d2 = 0 ∧ d3 = 0 ∧ d4 = 0 then
    some s
  else if d1 = 0 ∧ d2 = 0 ∧ d3 = 14 ∧ d4 = 0 then
    some { s with screen := fun _ => false }
  else if d1 = 0 ∧ d2 = 0 ∧ d3 = 14 ∧ d4 = 14 then
    let p := pop s
    some { p.1 with pc := p.2 }
  else if d1 = 1 then
    some { s with pc := op % 4096 }
  else if d1 = 2 then
    let s1 := push s s.pc
    some { s1 with pc := op % 4096 }
  else if d1 = 3 then
    some (if s.v_reg d2 = op % 256 then { s with pc := (s.pc + 2) % 65536 } else s)
  else if d1 = 4 then
    some (if s.v_reg d2 ≠ op % 256 then { s with pc := (s.pc + 2) % 65536 } else s)
  else if d1 = 5 ∧ d4 = 0 then
    some (if s.v_reg d2 = s.v_reg d3 then { s with pc := (s.pc + 2) % 65536 } else s)
  else if d1 = 6 then
    some { s with v_reg := setf s.v_reg d2 (op % 256) }
  else if d1 = 7 then
    some { s with v_reg := setf s.v_reg d2 ((s.v_reg d2 + op % 256) % 256) }
  else if d1 = 8 ∧ d4 = 0 then
    some { s with v_reg := setf s.v_reg d2 (s.v_reg d3) }
  else if d1 = 8 ∧ d4 = 1 then
    some { s with v_reg := setf s.v_reg d2 (s.v_reg d2 ||| s.v_reg d3) }
  else if d1 = 8 ∧ d4 = 2 then
    some { s with v_reg := setf s.v_reg d2 (s.v_reg d2 &&& s.v_reg d3) }
  else if d1 = 8 ∧ d4 = 3 then
    some { s with v_reg := setf s.v_reg d2 (s.v_reg d2 ^^^ s.v_reg d3) }
  else if d1 = 8 ∧ d4 = 4 then
    let sum := s.v_reg d2 + s.v_reg d3
    some { s with v_reg := setf (setf s.v_reg d2 (sum % 256)) 15 (if 255 < sum then 1 else 0) }
  else if d1 = 8 ∧ d4 = 5 then
    let nv := setf (setf s.v_reg d2 ((s.v_reg d2 + 256 - s.v_reg d3) % 256)) 15
      (if s.v_reg d2 < s.v_reg d3 then 0 else 1)
    some { s with v_reg := nv }
  else if d1 = 8 ∧ d4 = 6 then
    some { s with v_reg := setf (setf s.v_reg d2 (s.v_reg d2 >>> 1)) 15 (s.v_reg d2 &&& 1) }
  else if d1 = 8 ∧ d4 = 7 then
    let nv := setf (setf s.v_reg d2 ((s.v_reg d3 + 256 - s.v_reg d2) % 256)) 15
      (if s.v_reg d3 < s.v_reg d2 then 0 else 1)
    some { s with v_reg := nv }
  else if d1 = 8 ∧ d4 = 14 then
    let nv := setf (setf s.v_reg d2 (s.v_reg d2 <<< 1 % 256)) 15 (s.v_reg d2 >>> 7 &&& 1)
    some { s with v_reg := nv }
  else if d1 = 9 ∧ d4 = 0 then
    some (if s.v_reg d2 ≠ s.v_reg d3 then { s with pc := (s.pc + 2) % 65536 } else s)
  else if d1 = 10 then
    some { s with i_reg := op % 4096 }
  else if d1 = 11 then
    some { s with pc := s.v_reg 0 + op % 4096 }
  else if d1 = 12 then
    some { s with v_reg := setf s.v_reg d2 (rng &&& op % 256) }
  else if d1 = 13 then
    let p := drawRows s.ram s.screen false s.i_reg (s.v_reg d2) (s.v_reg d3) (List.range d4)
    some { s with screen := p.1, v_reg := setf s.v_reg 15 (if p.2 then 1 else 0) }
  else if d1 = 14 ∧ d3 = 9 ∧ d4 = 14 then
    some (if s.keys (s.v_reg d2) = true then { s with pc := (s.pc + 2) % 65536 } else s)
  else if d1 = 14 ∧ d3 = 10 ∧ d4 = 1 then
    some (if s.keys (s.v_reg d2) = false then { s with pc := (s.pc + 2) % 65536 } else s)
  else if d1 = 15 ∧ d3 = 0 ∧ d4 = 7 then
    some { s with v_reg := setf s.v_reg d2 s.dt }
  else if d1 = 15 ∧ d3 = 0 ∧ d4 = 10 then
    match findFirstKey s.keys with
    | some i => some { s with v_reg := setf s.v_reg d2 i }
    | none => some { s with pc := (s.pc + 65534) % 65536 }
  else if d1 = 15 ∧ d3 = 1 ∧ d4 = 5 then
    some { s with dt := s.v_reg d2 }
  else if d1 = 15 ∧ d3 = 1 ∧ d4 = 8 then
    some { s with st := s.v_reg d2 }
  else if d1 = 15 ∧ d3 = 1 ∧ d4 = 14 then
    some { s with i_reg := (s.i_reg + s.v_reg d2) % 65536 }
  else if d1 = 15 ∧ d3 = 2 ∧ d4 = 9 then
    some { s with i_reg := s.v_reg d2 * 5 }
  else if d1 = 15 ∧ d3 = 3 ∧ d4 = 3 then
    let vx := s.v_reg d2
    let nram := setf (setf (setf s.ram s.i_reg (min (vx * 100) 255)) (s.i_reg + 1)
      (vx * 10 % 10)) (s.i_reg + 2) (vx % 10)
    some { s with ram := nram }
  else if d1 = 15 ∧ d3 = 5 ∧ d4 = 5 then
    let nram := (List.range (d2 + 1)).foldl
      (fun r idx => setf r (s.i_reg + idx) (s.v_reg idx)) s.ram
    some { s with ram := nram }
  else if d1 = 15 ∧ d3 = 6 ∧ d4 = 5 then
    let nv := (List.range (d2 + 1)).foldl
      (fun v idx => setf v idx (s.ram (s.i_reg + idx))) s.v_reg
    some { s with v_reg := nv }
  else
    none

/-- Fetch of the next instruction word, Chip8::fetch: reads the two bytes
at pc and pc + 1, combines them big-endian, and advances pc by 2 (u16
wrapping arithmetic). -/
def fetch (s : Chip8) : Nat × Chip8 :=
  let hb := s.ram s.pc
  let lb := s.ram ((s.pc + 1) % 65536)
  (hb <<< 8 ||| lb, { s with pc := (s.pc + 2) % 65536 })

/-- One fetch-decode-execute cycle, Chip8::tick. -/
def tick (s : Chip8) (rng : Nat) : Option Chip8 :=
  let f := fetch s
  execute f.2 rng f.1

/-- Sequential byte copy into ram starting at the given address, modelling
the slice copy self.ram[start..end].copy_from_slice(data). -/
def writeBytes (ram : Nat → Nat) (addr : Nat) : List Nat → (Nat → Nat)
  | [] => ram
  | b :: rest => writeBytes (setf ram addr b) (addr + 1) rest

/-- Program loader, Chip8::load: copies the byte sequence into ram at
0x200.  The Rust slice expression self.ram[start..end] checks the bound
end <= 4096 before copy_from_slice touches a single byte, and panics on
violation; the fault case is therefore modelled as Except.error carrying
the machine exactly as it was at the fault, with no byte mutated. -/
def load (c : Chip8) (data : List Nat) : Except Chip8 Chip8 :=
  if 0x200 + data.length ≤ 4096 then
    Except.ok { c with ram := writeBytes c.ram 0x200 data }
  else
    Except.error c

/-- Opcode patterns listed in section 4.4 of the specification.  Modelled
from the spec's words, for the refinement claim about unimplemented
opcodes: clear 00E0, return 00EE, jump 1NNN, call 2NNN, skips
3XNN/4XNN/5XY0/9XY0, register immediate 6XNN/7XNN, register-register
8XY0..8XY7 and 8XYE, address register ANNN/FX1E/FX29, jump BNNN, random
CXNN, draw DXYN, key skips EX9E/EXA1, timer transfers FX07/FX15/FX18,
block on key FX0A, BCD FX33, register dump/load FX55/FX65. -/
def specListed (op : Nat) : Prop :=
  let d1 := op / 4096 % 16
  let d3 := op / 16 % 16
  let d4 := op % 16
  op = 0x00E0 ∨ op = 0x00EE ∨ d1 = 1 ∨ d1 = 2 ∨ d1 = 3 ∨ d1 = 4 ∨ (d1 = 5 ∧ d4 = 0) ∨
    d1 = 6 ∨ d1 = 7 ∨
    (d1 = 8 ∧ (d4 = 0 ∨ d4 = 1 ∨ d4 = 2 ∨ d4 = 3 ∨ d4 = 4 ∨ d4 = 5 ∨ d4 = 6 ∨ d4 = 7 ∨ d4 = 14)) ∨
    (d1 = 9 ∧ d4 = 0) ∨ d1 = 10 ∨ d1 = 11 ∨ d1 = 12 ∨ d1 = 13 ∨
    (d1 = 14 ∧ d3 = 9 ∧ d4 = 14) ∨ (d1 = 14 ∧ d3 = 10 ∧ d4 = 1) ∨
    (d1 = 15 ∧ ((d3 = 0 ∧ d4 = 7) ∨ (d3 = 0 ∧ d4 = 10) ∨ (d3 = 1 ∧ d4 = 5) ∨ (d3 = 1 ∧ d4 = 8) ∨
      (d3 = 1 ∧ d4 = 14) ∨ (d3 = 2 ∧ d4 = 9) ∨ (d3 = 3 ∧ d4 = 3) ∨ (d3 = 5 ∧ d4 = 5) ∨
      (d3 = 6 ∧ d4 = 5)))

/-- Concrete machine used as the witness input for the stack round-trip
claim: three return addresses already pushed. -/
def wStack : Chip8 :=
  push (push (push chip8New 0x222) 0x234) 0x246

/-- Concrete machine for the carry-add witness: V0 = 0xFF, V1 = 0x01. -/
def wAdd : Chip8 :=
  { chip8New with v_reg := setf (setf chip8New.v_reg 0 0xFF) 1 0x01 }

/-- Concrete machine for the borrow-subtract witness: V0 = 0x01, V1 = 0x02. -/
def wSub : Chip8 :=
  { chip8New with v_reg := setf (setf chip8New.v_reg 0 0x01) 1 0x02 }

/-- Concrete machine for the BCD failing input: V0 = 157, I = 0x300. -/
def wBcd : Chip8 :=
  { chip8New with v_reg := setf chip8New.v_reg 0 157, i_reg := 0x300 }

/-- Concrete machine for the flag-ordering witness: VF = 0xFF, V1 = 0x01. -/
def wAddF : Chip8 :=
  { chip8New with v_reg := setf (setf chip8New.v_reg 15 0xFF) 1 0x01 }

/-- Concrete machine for the block-on-key witness with no key pressed:
the instruction F50A is stored at pc = 0x200. -/
def w4a : Chip8 :=
  { chip8New with ram := setf (setf chip8New.ram 0x200 245) 0x201 10 }

/-- Concrete machine for the block-on-key witness with keys 3 and 7
pressed: the instruction F50A is stored at pc = 0x200. -/
def w4b : Chip8 :=
  { chip8New with
    ram := setf (setf chip8New.ram 0x200 245) 0x201 10,
    keys := fun i => i == 3 || i == 7 }

/-- Concrete machine for the draw witness: a one-bit sprite row 0x80 at
ram address 0x300, with I = 0x300. -/
def w3 : Chip8 :=
  { chip8New with ram := setf chip8New.ram 0x300 128, i_reg := 0x300 }

theorem setf_self {α : Type} (f : Nat → α) (i : Nat) (v : α) : setf f i v i = v := by
  simp [setf]

theorem setf_ne {α : Type} (f : Nat → α) {i j : Nat} (v : α) (h : j ≠ i) :
    setf f i v j = f j := by
  simp [setf, h]

/-- Step lemma for the carry-add arm 8XY4 of execute. -/
theorem exec_add8 (s : Chip8) (rng x y : Nat) (hx : x < 16) (hy : y < 16) :
    execute s rng (32772 + 256 * x + 16 * y) =
      some { s with v_reg := (setf (setf s.v_reg x ((s.v_reg x + s.v_reg y) % 256)) 15
        (if 255 < s.v_reg x + s.v_reg y then 1 else 0)) } := by
  have e1 : (32772 + 256 * x + 16 * y) / 4096 % 16 = 8 := by omega
  have e2 : (32772 + 256 * x + 16 * y) / 256 % 16 = x := by omega
  have e3 : (32772 + 256 * x + 16 * y) / 16 % 16 = y := by omega
  have e4 : (32772 + 256 * x + 16 * y) % 16 = 4 := by omega
  simp only [execute, e1, e2, e3, e4]
  norm_num

/-- Step lemma for the borrow-subtract arm 8XY5 of execute. -/
theorem exec_sub8 (s : Chip8) (rng x y : Nat) (hx : x < 16) (hy : y < 16) :
    execute s rng (32773 + 256 * x + 16 * y) =
      some { s with v_reg := (setf (setf s.v_reg x ((s.v_reg x + 256 - s.v_reg y) % 256)) 15
        (if s.v_reg x < s.v_reg y then 0 else 1)) } := by
  have e1 : (32773 + 256 * x + 16 * y) / 4096 % 16 = 8 := by omega
  have e2 : (32773 + 256 * x + 16 * y) / 256 % 16 = x := by omega
  have e3 : (32773 + 256 * x + 16 * y) / 16 % 16 = y := by omega
  have e4 : (32773 + 256 * x + 16 * y) % 16 = 5 := by omega
  simp only [execute, e1, e2, e3, e4]
  norm_num

/-- Step lemma for the reverse-subtract arm 8XY7 of execute. -/
theorem exec_subn8 (s : Chip8) (rng x y : Nat) (hx : x < 16) (hy : y < 16) :
    execute s rng (32775 + 256 * x + 16 * y) =
      some { s with v_reg := (setf (setf s.v_reg x ((s.v_reg y + 256 - s.v_reg x) % 256)) 15
        (if s.v_reg y < s.v_reg x then 0 else 1)) } := by
  have e1 : (32775 + 256 * x + 16 * y) / 4096 % 16 = 8 := by omega
  have e2 : (32775 + 256 * x + 16 * y) / 256 % 16 = x := by omega
  have e3 : (32775 + 256 * x + 16 * y) / 16 % 16 = y := by omega
  have e4 : (32775 + 256 * x + 16 * y) % 16 = 7 := by omega
  simp only [execute, e1, e2, e3, e4]
  norm_num

/-- Step lemma for the shift-right arm 8XY6 of execute. -/
theorem exec_shr8 (s : Chip8) (rng x y : Nat) (hx : x < 16) (hy : y < 16) :
    execute s rng (32774 + 256 * x + 16 * y) =
      some { s with v_reg := (setf (setf s.v_reg x (s.v_reg x >>> 1)) 15
        (s.v_reg x &&& 1)) } := by
  have e1 : (32774 + 256 * x + 16 * y) / 4096 % 16 = 8 := by omega
  have e2 : (32774 + 256 * x + 16 * y) / 256 % 16 = x := by omega
  have e3 : (32774 + 256 * x + 16 * y) / 16 % 16 = y := by omega
  have e4 : (32774 + 256 * x + 16 * y) % 16 = 6 := by omega
  simp only [execute, e1, e2, e3, e4]
  norm_num

/-- Step lemma for the shift-left arm 8XYE of execute. -/
theorem exec_shl8 (s : Chip8) (rng x y : Nat) (hx : x < 16) (hy : y < 16) :
    execute s rng (32782 + 256 * x + 16 * y) =
      some { s with v_reg := (setf (setf s.v_reg x (s.v_reg x <<< 1 % 256)) 15
        (s.v_reg x >>> 7 &&& 1)) } := by
  have e1 : (32782 + 256 * x + 16 * y) / 4096 % 16 = 8 := by omega
  have e2 : (32782 + 256 * x + 16 * y) / 256 % 16 = x := by omega
  have e3 : (32782 + 256 * x + 16 * y) / 16 % 16 = y := by omega
  have e4 : (32782 + 256 * x + 16 * y) % 16 = 14 := by omega
  simp only [execute, e1, e2, e3, e4]
  norm_num

/-- C5: for byte-valued registers with destination index x distinct from the
flags register, carry-add 8XY4 stores (Vx + Vy) mod 256 into Vx with VF = 1
exactly when Vx + Vy exceeds 255, and subtract 8XY5 stores the wrapped
difference (Vx - Vy) mod 256 into Vx with VF = 1 exactly when no borrow
occurs, that is when Vy <= Vx. -/
theorem C5_carry_add_and_borrow_sub (s : Chip8) (rng x y : Nat)
    (hx : x < 16) (hy : y < 16) (hxF : x ≠ 15)
    (hbx : s.v_reg x < 256) (hby : s.v_reg y < 256) :
    (∃ s', execute s rng (32772 + 256 * x + 16 * y) = some s' ∧
      s'.v_reg x = (s.v_reg x + s.v_reg y) % 256 ∧
      (s'.v_reg 15 = 1 ↔ 255 < s.v_reg x + s.v_reg y) ∧
      (s'.v_reg 15 = 0 ↔ s.v_reg x + s.v_reg y ≤ 255)) ∧
    (∃ s', execute s rng (32773 + 256 * x + 16 * y) = some s' ∧
      s'.v_reg x = (s.v_reg x + 256 - s.v_reg y) % 256 ∧
      (s'.v_reg 15 = 1 ↔ s.v_reg y ≤ s.v_reg x) ∧
      (s'.v_reg 15 = 0 ↔ s.v_reg x < s.v_reg y)) := by
  constructor
  · refine ⟨_, exec_add8 s rng x y hx hy, ?_, ?_, ?_⟩
    · dsimp only
      rw [setf_ne _ _ hxF, setf_self]
    · dsimp only
      rw [setf_self]
      by_cases hc : 255 < s.v_reg x + s.v_reg y
      · rw [if_pos hc]
        exact iff_of_true rfl hc
      · rw [if_neg hc]
        exact iff_of_false (by omega) hc
    · dsimp only
      rw [setf_self]
      by_cases hc : 255 < s.v_reg x + s.v_reg y
      · rw [if_pos hc]
        exact iff_of_false (by omega) (by omega)
      · rw [if_neg hc]
        exact iff_of_true rfl (by omega)
  · refine ⟨_, exec_sub8 s rng x y hx hy, ?_, ?_, ?_⟩
    · dsimp only
      rw [setf_ne _ _ hxF, setf_self]
    · dsimp only
      rw [setf_self]
      by_cases hc : s.v_reg x < s.v_reg y
      · rw [if_pos hc]
        exact iff_of_false (by omega) (by omega)
      · rw [if_neg hc]
        exact iff_of_true rfl (by omega)
    · dsimp only
      rw [setf_self]
      by_cases hc : s.v_reg x < s.v_reg y
      · rw [if_pos hc]
        exact iff_of_true rfl hc
      · rw [if_neg hc]
        exact iff_of_false (by omega) hc

/-- Witness for C5 at the spec's own test vectors: V0 = 0xFF plus V1 = 0x01
gives V0 = 0x00 with VF = 1, and V0 = 0x01 minus V1 = 0x02 gives V0 = 0xFF
with VF = 0. -/
theorem C5_carry_add_and_borrow_sub_witness :
    (∃ s', execute wAdd 0 (32772 + 256 * 0 + 16 * 1) = some s' ∧
      s'.v_reg 0 = (wAdd.v_reg 0 + wAdd.v_reg 1) % 256 ∧
      (s'.v_reg 15 = 1 ↔ 255 < wAdd.v_reg 0 + wAdd.v_reg 1) ∧
      (s'.v_reg 15 = 0 ↔ wAdd.v_reg 0 + wAdd.v_reg 1 ≤ 255)) ∧
    (∃ s', execute wSub 0 (32773 + 256 * 0 + 16 * 1) = some s' ∧
      s'.v_reg 0 = (wSub.v_reg 0 + 256 - wSub.v_reg 1) % 256 ∧
      (s'.v_reg 15 = 1 ↔ wSub.v_reg 1 ≤ wSub.v_reg 0) ∧
      (s'.v_reg 15 = 0 ↔ wSub.v_reg 0 < wSub.v_reg 1)) :=
  ⟨(C5_carry_add_and_borrow_sub wAdd 0 0 1 (by decide) (by decide) (by decide)
      (by decide) (by decide)).1,
   (C5_carry_add_and_borrow_sub wSub 0 0 1 (by decide) (by decide) (by decide)
      (by decide) (by decide)).2⟩

/-- C8: popping immediately after pushing v returns v and restores the stack
pointer, both from an arbitrary state with room on the stack and after any
prior sequence of pushes that stays within the 16-slot capacity. -/
theorem C8_stack_round_trip :
    (∀ (s : Chip8) (v : Nat), s.sp < 16 →
      (pop (push s v)).2 = v ∧ (pop (push s v)).1.sp = s.sp) ∧
    (∀ (vs : List Nat) (s : Chip8) (v : Nat), s.sp + vs.length < 16 →
      (pop (push (vs.foldl push s) v)).2 = v ∧
      (pop (push (vs.foldl push s) v)).1.sp = (vs.foldl push s).sp) := by
  have base : ∀ (s : Chip8) (v : Nat),
      (pop (push s v)).2 = v ∧ (pop (push s v)).1.sp = s.sp := by
    intro s v
    constructor
    · show setf s.stack s.sp v (s.sp + 1 - 1) = v
      have : s.sp + 1 - 1 = s.sp := by omega
      rw [this, setf_self]
    · show s.sp + 1 - 1 = s.sp
      omega
  exact ⟨fun s v _ => base s v, fun vs s v _ => base (vs.foldl push s) v⟩

/-- Witness for C8: the round trip on a concrete machine that already holds
three pushed return addresses. -/
theorem C8_stack_round_trip_witness :
    ((pop (push wStack 0x258)).2 = 0x258 ∧ (pop (push wStack 0x258)).1.sp = wStack.sp) ∧
    ((pop (push ([0x222, 0x234, 0x246].foldl push chip8New) 0x258)).2 = 0x258 ∧
      (pop (push ([0x222, 0x234, 0x246].foldl push chip8New) 0x258)).1.sp =
        ([0x222, 0x234, 0x246].foldl push chip8New).sp) :=
  ⟨C8_stack_round_trip.1 wStack 0x258 (by decide),
   C8_stack_round_trip.2 [0x222, 0x234, 0x246] chip8New 0x258 (by decide)⟩

/-- C1: the BCD store FX33 in the source is broken: it multiplies before
flooring where the standard BCD decomposition divides.  At the failing
input V0 = 157, I = 0x300, opcode F033, the bytes written to memory at I,
I + 1, I + 2 are 255, 0, 7 (the hundreds expression 157 * 100 saturates
to 255 in the as-u8 cast, and 1570 mod 10 is 0), not the digits 1, 5, 7
that the claim and the spec require. -/
theorem C1_bcd_store_failing_input :
    (execute wBcd 0 0xF033).map (fun t => (t.ram 0x300, t.ram 0x301, t.ram 0x302)) =
      some (255, 0, 7) := by
  rfl

/-- Pointwise description of the sequential byte copy: inside the copied
window the result is the corresponding data byte, outside it the original
ram cell. -/
theorem writeBytes_spec (data : List Nat) : ∀ (ram : Nat → Nat) (addr a : Nat),
    writeBytes ram addr data a =
      if addr ≤ a ∧ a < addr + data.length then data.getD (a - addr) 0 else ram a := by
  induction data with
  | nil =>
    intro ram addr a
    simp only [writeBytes, List.length_nil]
    rw [if_neg (by omega)]
  | cons b rest ih =>
    intro ram addr a
    simp only [writeBytes, List.length_cons]
    rw [ih]
    by_cases h1 : addr + 1 ≤ a ∧ a < addr + 1 + rest.length
    · rw [if_pos h1, if_pos (by omega)]
      have hidx : a - addr = (a - (addr + 1)) + 1 := by omega
      rw [hidx, List.getD_cons_succ]
    · rw [if_neg h1]
      by_cases h2 : a = addr
      · subst h2
        rw [if_pos (by omega), setf_self]
        have hidx : a - a = 0 := by omega
        rw [hidx, List.getD_cons_zero]
      · rw [setf_ne _ _ h2, if_neg (by omega)]

/-- C6: loading a program larger than 4096 - 0x200 bytes is an out-of-bounds
fault raised by the slice bound check before any byte is copied, so the
machine - in particular its memory - is exactly what it was before the
call. -/
theorem C6_load_too_large (c : Chip8) (data : List Nat)
    (h : 4096 - 0x200 < data.length) :
    load c data = Except.error c := by
  unfold load
  rw [if_neg (by omega)]

/-- Witness for C6: a 3585-byte program, one byte over the limit. -/
theorem C6_load_too_large_witness :
    load chip8New (List.replicate 3585 0) = Except.error chip8New :=
  C6_load_too_large chip8New (List.replicate 3585 0)
    (by simp only [List.length_replicate]; norm_num)

/-- C7: loading a program that satisfies the length precondition writes
exactly byte k of the data to address 0x200 + k, leaves every other ram
cell unchanged, and leaves the registers, program counter, stack, display
buffer, input state and both timers untouched. -/
theorem C7_load_writes_exactly (c : Chip8) (data : List Nat)
    (h : data.length ≤ 4096 - 0x200) :
    ∃ c', load c data = Except.ok c' ∧
      (∀ k, k < data.length → c'.ram (0x200 + k) = data.getD k 0) ∧
      (∀ a, a < 0x200 ∨ 0x200 + data.length ≤ a → c'.ram a = c.ram a) ∧
      c'.pc = c.pc ∧ c'.v_reg = c.v_reg ∧ c'.i_reg = c.i_reg ∧ c'.sp = c.sp ∧
      c'.stack = c.stack ∧ c'.screen = c.screen ∧ c'.keys = c.keys ∧
      c'.dt = c.dt ∧ c'.st = c.st := by
  refine ⟨{ c with ram := writeBytes c.ram 0x200 data }, ?_, ?_, ?_, rfl, rfl,
    rfl, rfl, rfl, rfl, rfl, rfl, rfl⟩
  · unfold load
    rw [if_pos (by omega)]
  · intro k hk
    dsimp only
    rw [writeBytes_spec, if_pos (by omega)]
    have hidx : 0x200 + k - 0x200 = k := by omega
    rw [hidx]
  · intro a ha
    dsimp only
    rw [writeBytes_spec, if_neg (by omega)]

/-- Witness for C7: loading the three bytes 1, 2, 3 into a fresh machine. -/
theorem C7_load_writes_exactly_witness :
    ∃ c', load chip8New [1, 2, 3] = Except.ok c' ∧
      (∀ k, k < List.length [1, 2, 3] → c'.ram (0x200 + k) = [1, 2, 3].getD k 0) ∧
      (∀ a, a < 0x200 ∨ 0x200 + List.length [1, 2, 3] ≤ a → c'.ram a = chip8New.ram a) ∧
      c'.pc = chip8New.pc ∧ c'.v_reg = chip8New.v_reg ∧ c'.i_reg = chip8New.i_reg ∧
      c'.sp = chip8New.sp ∧ c'.stack = chip8New.stack ∧ c'.screen = chip8New.screen ∧
      c'.keys = chip8New.keys ∧ c'.dt = chip8New.dt ∧ c'.st = chip8New.st :=
  C7_load_writes_exactly chip8New [1, 2, 3] (by simp)

/-- C9: when the destination register index x is 0xF, every flag-producing
arithmetic opcode (carry-add 8FY4, subtract 8FY5, reverse-subtract 8FY7,
shift right 8FY6, shift left 8FYE) leaves the computed flag in VF, because
the source stores the flag after the generic destination store. -/
theorem C9_flag_written_last (s : Chip8) (rng y : Nat) (hy : y < 16)
    (hbF : s.v_reg 15 < 256) (hby : s.v_reg y < 256) :
    (∃ s', execute s rng (32772 + 256 * 15 + 16 * y) = some s' ∧
      (s'.v_reg 15 = 1 ↔ 255 < s.v_reg 15 + s.v_reg y) ∧
      (s'.v_reg 15 = 0 ↔ s.v_reg 15 + s.v_reg y ≤ 255)) ∧
    (∃ s', execute s rng (32773 + 256 * 15 + 16 * y) = some s' ∧
      (s'.v_reg 15 = 1 ↔ s.v_reg y ≤ s.v_reg 15) ∧
      (s'.v_reg 15 = 0 ↔ s.v_reg 15 < s.v_reg y)) ∧
    (∃ s', execute s rng (32775 + 256 * 15 + 16 * y) = some s' ∧
      (s'.v_reg 15 = 1 ↔ s.v_reg 15 ≤ s.v_reg y) ∧
      (s'.v_reg 15 = 0 ↔ s.v_reg y < s.v_reg 15)) ∧
    (∃ s', execute s rng (32774 + 256 * 15 + 16 * y) = some s' ∧
      s'.v_reg 15 = s.v_reg 15 % 2) ∧
    (∃ s', execute s rng (32782 + 256 * 15 + 16 * y) = some s' ∧
      s'.v_reg 15 = s.v_reg 15 / 128 % 2) := by
  refine ⟨⟨_, exec_add8 s rng 15 y (by omega) hy, ?_, ?_⟩,
    ⟨_, exec_sub8 s rng 15 y (by omega) hy, ?_, ?_⟩,
    ⟨_, exec_subn8 s rng 15 y (by omega) hy, ?_, ?_⟩,
    ⟨_, exec_shr8 s rng 15 y (by omega) hy, ?_⟩,
    ⟨_, exec_shl8 s rng 15 y (by omega) hy, ?_⟩⟩
  · dsimp only
    rw [setf_self]
    by_cases hc : 255 < s.v_reg 15 + s.v_reg y
    · rw [if_pos hc]
      exact iff_of_true rfl hc
    · rw [if_neg hc]
      exact iff_of_false (by omega) hc
  · dsimp only
    rw [setf_self]
    by_cases hc : 255 < s.v_reg 15 + s.v_reg y
    · rw [if_pos hc]
      exact iff_of_false (by omega) (by omega)
    · rw [if_neg hc]
      exact iff_of_true rfl (by omega)
  · dsimp only
    rw [setf_self]
    by_cases hc : s.v_reg 15 < s.v_reg y
    · rw [if_pos hc]
      exact iff_of_false (by omega) (by omega)
    · rw [if_neg hc]
      exact iff_of_true rfl (by omega)
  · dsimp only
    rw [setf_self]
    by_cases hc : s.v_reg 15 < s.v_reg y
    · rw [if_pos hc]
      exact iff_of_true rfl hc
    · rw [if_neg hc]
      exact iff_of_false (by omega) hc
  · dsimp only
    rw [setf_self]
    by_cases hc : s.v_reg y < s.v_reg 15
    · rw [if_pos hc]
      exact iff_of_false (by omega) (by omega)
    · rw [if_neg hc]
      exact iff_of_true rfl (by omega)
  · dsimp only
    rw [setf_self]
    by_cases hc : s.v_reg y < s.v_reg 15
    · rw [if_pos hc]
      exact iff_of_true rfl hc
    · rw [if_neg hc]
      exact iff_of_false (by omega) hc
  · dsimp only
    rw [setf_self, Nat.and_one_is_mod]
  · dsimp only
    rw [setf_self, Nat.and_one_is_mod, Nat.shiftRight_eq_div_pow]

/-- Witness for C9 on a machine with VF = 0xFF and V1 = 0x01, where the
arithmetic results and the flags differ visibly. -/
theorem C9_flag_written_last_witness :
    (∃ s', execute wAddF 0 (32772 + 256 * 15 + 16 * 1) = some s' ∧
      (s'.v_reg 15 = 1 ↔ 255 < wAddF.v_reg 15 + wAddF.v_reg 1) ∧
      (s'.v_reg 15 = 0 ↔ wAddF.v_reg 15 + wAddF.v_reg 1 ≤ 255)) ∧
    (∃ s', execute wAddF 0 (32773 + 256 * 15 + 16 * 1) = some s' ∧
      (s'.v_reg 15 = 1 ↔ wAddF.v_reg 1 ≤ wAddF.v_reg 15) ∧
      (s'.v_reg 15 = 0 ↔ wAddF.v_reg 15 < wAddF.v_reg 1)) ∧
    (∃ s', execute wAddF 0 (32775 + 256 * 15 + 16 * 1) = some s' ∧
      (s'.v_reg 15 = 1 ↔ wAddF.v_reg 15 ≤ wAddF.v_reg 1) ∧
      (s'.v_reg 15 = 0 ↔ wAddF.v_reg 1 < wAddF.v_reg 15)) ∧
    (∃ s', execute wAddF 0 (32774 + 256 * 15 + 16 * 1) = some s' ∧
      s'.v_reg 15 = wAddF.v_reg 15 % 2) ∧
    (∃ s', execute wAddF 0 (32782 + 256 * 15 + 16 * 1) = some s' ∧
      s'.v_reg 15 = wAddF.v_reg 15 / 128 % 2) :=
  C9_flag_written_last wAddF 0 1 (by decide) (by decide) (by decide)

/-- C10: the all-zero instruction word 0x0000 is a silent no-op: one tick on
a state whose next word is 0x0000 advances pc by 2 and changes nothing
else, and no decode fault is raised. -/
theorem C10_zero_word_noop (s : Chip8) (rng : Nat) (hpc : s.pc + 2 < 65536)
    (h0 : s.ram s.pc = 0) (h1 : s.ram (s.pc + 1) = 0) :
    ∃ s', tick s rng = some s' ∧ s'.pc = s.pc + 2 ∧ s'.ram = s.ram ∧
      s'.v_reg = s.v_reg ∧ s'.i_reg = s.i_reg ∧ s'.sp = s.sp ∧ s'.stack = s.stack ∧
      s'.screen = s.screen ∧ s'.keys = s.keys ∧ s'.dt = s.dt ∧ s'.st = s.st := by
  have e1 : (s.pc + 1) % 65536 = s.pc + 1 := by omega
  refine ⟨{ s with pc := (s.pc + 2) % 65536 }, ?_, by dsimp only; omega, rfl, rfl,
    rfl, rfl, rfl, rfl, rfl, rfl, rfl⟩
  unfold tick fetch
  dsimp only
  rw [e1, h0, h1]
  have hop : (0 <<< 8 ||| 0 : Nat) = 0 := by decide
  rw [hop]
  simp only [execute]
  norm_num

/-- Witness for C10: a fresh machine, whose ram at pc = 0x200 holds 0x0000. -/
theorem C10_zero_word_noop_witness :
    ∃ s', tick chip8New 0 = some s' ∧ s'.pc = chip8New.pc + 2 ∧
      s'.ram = chip8New.ram ∧ s'.v_reg = chip8New.v_reg ∧ s'.i_reg = chip8New.i_reg ∧
      s'.sp = chip8New.sp ∧ s'.stack = chip8New.stack ∧ s'.screen = chip8New.screen ∧
      s'.keys = chip8New.keys ∧ s'.dt = chip8New.dt ∧ s'.st = chip8New.st :=
  C10_zero_word_noop chip8New 0 (by decide) (by decide) (by decide)

/-- C2 counterexample: the all-zero instruction word 0x0000 matches none of
the opcode patterns listed in the spec, yet executing it is not a fault -
the source handles (0,0,0,0) as a silent no-op - so the claim as stated is
false at op = 0x0000. -/
theorem C2_counterexample_zero_word :
    ¬ specListed 0 ∧ (execute chip8New 0 0).isSome = true := by
  constructor
  · simp only [specListed]
    omega
  · rfl

set_option maxHeartbeats 2000000 in
/-- C2 (amended): every 16-bit instruction word other than 0x0000 that
matches none of the opcode patterns listed in the spec is an
unimplemented-opcode fault - the decode falls through to the fatal
catch-all arm - rather than a silent state change or no-op. -/
theorem C2_unknown_opcode_faults (s : Chip8) (rng op : Nat) (hop : op < 65536)
    (hns : ¬ specListed op) (h0 : op ≠ 0) :
    execute s rng op = none := by
  obtain ⟨a, b, c, d, rfl, ha, hb, hc, hd⟩ :
      ∃ a b c d, op = 4096 * a + 256 * b + 16 * c + d ∧ a < 16 ∧ b < 16 ∧ c < 16 ∧ d < 16 :=
    ⟨op / 4096 % 16, op / 256 % 16, op / 16 % 16, op % 16, by omega, by omega, by omega, by omega⟩
  have e1 : (4096 * a + 256 * b + 16 * c + d) / 4096 % 16 = a := by omega
  have e2 : (4096 * a + 256 * b + 16 * c + d) / 256 % 16 = b := by omega
  have e3 : (4096 * a + 256 * b + 16 * c + d) / 16 % 16 = c := by omega
  have e4 : (4096 * a + 256 * b + 16 * c + d) % 16 = d := by omega
  simp only [specListed, e1, e3, e4] at hns
  push_neg at hns
  obtain ⟨n1, n2, n3, n4, n5, n6, n7, n8, n9, n10, n11, n12, n13, n14, n15, n16, n17, n18⟩ := hns
  have c1 : ¬(a = 0 ∧ b = 0 ∧ c = 0 ∧ d = 0) := fun h => h0 (by rw [h.1, h.2.1, h.2.2.1, h.2.2.2])
  have c2 : ¬(a = 0 ∧ b = 0 ∧ c = 14 ∧ d = 0) := fun h => n1 (by rw [h.1, h.2.1, h.2.2.1, h.2.2.2])
  have c3 : ¬(a = 0 ∧ b = 0 ∧ c = 14 ∧ d = 14) := fun h => n2 (by rw [h.1, h.2.1, h.2.2.1, h.2.2.2])
  have c4 : ¬(a = 1) := n3
  have c5 : ¬(a = 2) := n4
  have c6 : ¬(a = 3) := n5
  have c7 : ¬(a = 4) := n6
  have c8 : ¬(a = 5 ∧ d = 0) := fun h => n7 h.1 h.2
  have c9 : ¬(a = 6) := n8
  have c10 : ¬(a = 7) := n9
  have c11 : ¬(a = 8 ∧ d = 0) := fun h => (n10 h.1).1 h.2
  have c12 : ¬(a = 8 ∧ d = 1) := fun h => (n10 h.1).2.1 h.2
  have c13 : ¬(a = 8 ∧ d = 2) := fun h => (n10 h.1).2.2.1 h.2
  have c14 : ¬(a = 8 ∧ d = 3) := fun h => (n10 h.1).2.2.2.1 h.2
  have c15 : ¬(a = 8 ∧ d = 4) := fun h => (n10 h.1).2.2.2.2.1 h.2
  have c16 : ¬(a = 8 ∧ d = 5) := fun h => (n10 h.1).2.2.2.2.2.1 h.2
  have c17 : ¬(a = 8 ∧ d = 6) := fun h => (n10 h.1).2.2.2.2.2.2.1 h.2
  have c18 : ¬(a = 8 ∧ d = 7) := fun h => (n10 h.1).2.2.2.2.2.2.2.1 h.2
  have c19 : ¬(a = 8 ∧ d = 14) := fun h => (n10 h.1).2.2.2.2.2.2.2.2 h.2
  have c20 : ¬(a = 9 ∧ d = 0) := fun h => n11 h.1 h.2
  have c21 : ¬(a = 10) := n12
  have c22 : ¬(a = 11) := n13
  have c23 : ¬(a = 12) := n14
  have c24 : ¬(a = 13) := n15
  have c25 : ¬(a = 14 ∧ c = 9 ∧ d = 14) := fun h => n16 h.1 h.2.1 h.2.2
  have c26 : ¬(a = 14 ∧ c = 10 ∧ d = 1) := fun h => n17 h.1 h.2.1 h.2.2
  have c27 : ¬(a = 15 ∧ c = 0 ∧ d = 7) := fun h => (n18 h.1).1 h.2.1 h.2.2
  have c28 : ¬(a = 15 ∧ c = 0 ∧ d = 10) := fun h => (n18 h.1).2.1 h.2.1 h.2.2
  have c29 : ¬(a = 15 ∧ c = 1 ∧ d = 5) := fun h => (n18 h.1).2.2.1 h.2.1 h.2.2
  have c30 : ¬(a = 15 ∧ c = 1 ∧ d = 8) := fun h => (n18 h.1).2.2.2.1 h.2.1 h.2.2
  have c31 : ¬(a = 15 ∧ c = 1 ∧ d = 14) := fun h => (n18 h.1).2.2.2.2.1 h.2.1 h.2.2
  have c32 : ¬(a = 15 ∧ c = 2 ∧ d = 9) := fun h => (n18 h.1).2.2.2.2.2.1 h.2.1 h.2.2
  have c33 : ¬(a = 15 ∧ c = 3 ∧ d = 3) := fun h => (n18 h.1).2.2.2.2.2.2.1 h.2.1 h.2.2
  have c34 : ¬(a = 15 ∧ c = 5 ∧ d = 5) := fun h => (n18 h.1).2.2.2.2.2.2.2.1 h.2.1 h.2.2
  have c35 : ¬(a = 15 ∧ c = 6 ∧ d = 5) := fun h => (n18 h.1).2.2.2.2.2.2.2.2 h.2.1 h.2.2
  simp only [execute, e1, e2, e3, e4]
  rw [if_neg c1, if_neg c2, if_neg c3, if_neg c4, if_neg c5, if_neg c6, if_neg c7, if_neg c8, if_neg c9, if_neg c10, if_neg c11, if_neg c12, if_neg c13, if_neg c14, if_neg c15, if_neg c16, if_neg c17, if_neg c18, if_neg c19, if_neg c20, if_neg c21, if_neg c22, if_neg c23, if_neg c24, if_neg c25, if_neg c26, if_neg c27, if_neg c28, if_neg c29, if_neg c30, if_neg c31, if_neg c32, if_neg c33, if_neg c34, if_neg c35]

/-- Witness for C2: the word 0xFFFF matches no listed pattern and faults. -/
theorem C2_unknown_opcode_faults_witness :
    (0xFFFF : Nat) < 65536 ∧ ¬ specListed 0xFFFF ∧ (0xFFFF : Nat) ≠ 0 ∧
      execute chip8New 0 0xFFFF = none := by
  refine ⟨by norm_num, ?_, by norm_num,
    C2_unknown_opcode_faults chip8New 0 0xFFFF (by norm_num) ?_ (by norm_num)⟩ <;>
    · simp only [specListed]
      omega

/-- Combining two bytes big-endian, as fetch does, equals the arithmetic
value 256 * high + low whenever the low byte is in range. -/
theorem fetch_word_eq (hb lb : Nat) (h : lb < 256) : hb <<< 8 ||| lb = 256 * hb + lb := by
  rw [Nat.shiftLeft_eq]
  have h2 : lb < 2 ^ 8 := lt_of_lt_of_le h (by norm_num)
  rw [show hb * 2 ^ 8 = 2 ^ 8 * hb from Nat.mul_comm _ _]
  rw [← Nat.mul_add_lt_is_or h2 hb]

/-- The keypad scan returns none when every key in the scanned window is up. -/
theorem findKeyAux_none (keys : Nat → Bool) :
    ∀ (fuel i : Nat), (∀ j, i ≤ j → j < i + fuel → keys j = false) →
      findKeyAux keys i fuel = none := by
  intro fuel
  induction fuel with
  | zero => intro i _; rfl
  | succ f ih =>
    intro i h
    have hi : keys i = false := h i (Nat.le_refl i) (by omega)
    simp only [findKeyAux, hi]
    exact ih (i + 1) (fun j hj1 hj2 => h j (by omega) (by omega))

/-- The keypad scan returns the lowest pressed index in the scanned window. -/
theorem findKeyAux_some (keys : Nat → Bool) :
    ∀ (fuel i k : Nat), i ≤ k → k < i + fuel → keys k = true →
      (∀ j, i ≤ j → j < k → keys j = false) → findKeyAux keys i fuel = some k := by
  intro fuel
  induction fuel with
  | zero =>
    intro i k h1 h2 _ _
    exfalso
    omega
  | succ f ih =>
    intro i k h1 h2 hk hlow
    by_cases hik : i = k
    · subst hik
      simp only [findKeyAux, hk, if_true]
    · have hi : keys i = false := hlow i (Nat.le_refl i) (by omega)
      simp only [findKeyAux, hi]
      exact ih (i + 1) k (by omega) (by omega) hk (fun j hj1 hj2 => hlow j (by omega) hj2)

/-- Step lemma for the block-on-key arm FX0A of execute. -/
theorem exec_fx0a (s : Chip8) (rng x : Nat) (hx : x < 16) :
    execute s rng (61440 + 256 * x + 10) =
      match findFirstKey s.keys with
      | some i => some { s with v_reg := setf s.v_reg x i }
      | none => some { s with pc := (s.pc + 65534) % 65536 } := by
  have e1 : (61440 + 256 * x + 10) / 4096 % 16 = 15 := by omega
  have e2 : (61440 + 256 * x + 10) / 256 % 16 = x := by omega
  have e3 : (61440 + 256 * x + 10) / 16 % 16 = 0 := by omega
  have e4 : (61440 + 256 * x + 10) % 16 = 10 := by omega
  simp only [execute, e1, e2, e3, e4]
  norm_num

/-- C4: on a state whose next instruction word is FX0A, a tick with no key
pressed leaves the whole machine unchanged (the pc is rewound by 2 after
the fetch advanced it, a net zero advance, and Vx is untouched), while a
tick with at least one key pressed stores the lowest pressed key index
into Vx and advances pc by 2. -/
theorem C4_block_on_key (s : Chip8) (rng x : Nat) (hx : x < 16)
    (hpc : s.pc + 2 < 65536) (hhi : s.ram s.pc = 240 + x) (hlo : s.ram (s.pc + 1) = 10) :
    ((∀ i, i < 16 → s.keys i = false) → tick s rng = some s) ∧
    (∀ k, k < 16 → s.keys k = true → (∀ j, j < k → s.keys j = false) →
      tick s rng = some { s with pc := s.pc + 2, v_reg := setf s.v_reg x k }) := by
  have hp1 : (s.pc + 1) % 65536 = s.pc + 1 := by omega
  have hstep : tick s rng =
      match findFirstKey s.keys with
      | some i => some { s with pc := (s.pc + 2) % 65536, v_reg := setf s.v_reg x i }
      | none => some { s with pc := ((s.pc + 2) % 65536 + 65534) % 65536 } := by
    simp only [tick, fetch]
    rw [hp1, hhi, hlo]
    rw [fetch_word_eq _ _ (by norm_num)]
    rw [show 256 * (240 + x) + 10 = 61440 + 256 * x + 10 from by ring]
    rw [exec_fx0a _ rng x hx]
  constructor
  · intro hnone
    have hfk : findFirstKey s.keys = none :=
      findKeyAux_none s.keys 16 0 (fun j _ hj2 => hnone j (by omega))
    rw [hstep, hfk]
    have hpc2 : ((s.pc + 2) % 65536 + 65534) % 65536 = s.pc := by omega
    rw [hpc2]
  · intro k hk hkey hlow
    have hfk : findFirstKey s.keys = some k :=
      findKeyAux_some s.keys 16 0 k (by omega) (by omega) hkey (fun j _ hj2 => hlow j hj2)
    rw [hstep, hfk]
    have hpc2 : (s.pc + 2) % 65536 = s.pc + 2 := by omega
    rw [hpc2]

/-- Witness for C4: the machine w4a (no keys) ticks to itself on F50A; the
machine w4b (keys 3 and 7 pressed) stores 3 - the lowest pressed index -
into V5 and advances pc by 2. -/
theorem C4_block_on_key_witness :
    (tick w4a 0 = some w4a) ∧
    (tick w4b 0 = some { w4b with pc := w4b.pc + 2, v_reg := setf w4b.v_reg 5 3 }) :=
  ⟨(C4_block_on_key w4a 0 5 (by decide) (by decide) (by decide) (by decide)).1
      (by decide),
   (C4_block_on_key w4b 0 5 (by decide) (by decide) (by decide) (by decide)).2 3
      (by decide) (by decide) (by decide)⟩

/-- Characterization of one sprite row: a pixel targeted by a set bit of
the row is toggled exactly once (column targets inside one row are
pairwise distinct, since column offsets are below the screen width 64), a
pixel targeted by no set bit is untouched, and the flipped flag ends true
exactly when it started true or some set bit hit a lit pixel. -/
theorem drawBits_spec (p xc yv : Nat) :
    ∀ (L : List Nat), L.Nodup → (∀ c ∈ L, c < 8) →
    ∀ (sc : Nat → Bool) (fl : Bool),
      (∀ j, (∃ c ∈ L, p &&& (128 >>> c) ≠ 0 ∧ (xc + c) % 64 + 64 * (yv % 32) = j) →
        (drawBits sc fl p xc yv L).1 j = ! sc j) ∧
      (∀ j, (¬ ∃ c ∈ L, p &&& (128 >>> c) ≠ 0 ∧ (xc + c) % 64 + 64 * (yv % 32) = j) →
        (drawBits sc fl p xc yv L).1 j = sc j) ∧
      ((drawBits sc fl p xc yv L).2 = true ↔
        fl = true ∨ ∃ c ∈ L, p &&& (128 >>> c) ≠ 0 ∧ sc ((xc + c) % 64 + 64 * (yv % 32)) = true) := by
  intro L
  induction L with
  | nil =>
    intro _ _ sc fl
    refine ⟨?_, ?_, ?_⟩
    · intro j hj
      obtain ⟨c, hc, _⟩ := hj
      exact absurd hc (List.not_mem_nil c)
    · intro j _
      rfl
    · simp [drawBits]
  | cons c0 rest ih =>
    intro hnd hlt sc fl
    have hnd' : rest.Nodup := (List.nodup_cons.mp hnd).2
    have hc0notin : c0 ∉ rest := (List.nodup_cons.mp hnd).1
    have hlt' : ∀ c ∈ rest, c < 8 := fun c hc => hlt c (List.mem_cons_of_mem _ hc)
    have hc0 : c0 < 8 := hlt c0 (List.mem_cons_self _ _)
    by_cases hbit : p &&& (128 >>> c0) ≠ 0
    · simp only [drawBits, if_pos hbit]
      have hinj : ∀ c ∈ rest,
          (xc + c) % 64 + 64 * (yv % 32) ≠ (xc + c0) % 64 + 64 * (yv % 32) := by
        intro c hc
        have hne : c ≠ c0 := fun h => hc0notin (h ▸ hc)
        have hc8 : c < 8 := hlt' c hc
        omega
      obtain ⟨H1, H2, H3⟩ := ih hnd' hlt'
        (setf sc ((xc + c0) % 64 + 64 * (yv % 32))
          (! sc ((xc + c0) % 64 + 64 * (yv % 32))))
        (fl || sc ((xc + c0) % 64 + 64 * (yv % 32)))
      have hsetrest : ∀ c ∈ rest,
          setf sc ((xc + c0) % 64 + 64 * (yv % 32))
              (! sc ((xc + c0) % 64 + 64 * (yv % 32))) ((xc + c) % 64 + 64 * (yv % 32)) =
            sc ((xc + c) % 64 + 64 * (yv % 32)) :=
        fun c hc => setf_ne _ _ (hinj c hc)
      refine ⟨?_, ?_, ?_⟩
      · intro j hj
        obtain ⟨c, hc, hcb, hcj⟩ := hj
        rcases List.mem_cons.mp hc with rfl | hcr
        · have hnr : ¬ ∃ c ∈ rest, p &&& (128 >>> c) ≠ 0 ∧
              (xc + c) % 64 + 64 * (yv % 32) = j := by
            rintro ⟨c1, hc1, _, hcj1⟩
            exact hinj c1 hc1 (hcj1.trans hcj.symm)
          rw [H2 j hnr, ← hcj, setf_self]
        · have hji : j ≠ (xc + c0) % 64 + 64 * (yv % 32) := by
            rw [← hcj]
            exact hinj c hcr
          rw [H1 j ⟨c, hcr, hcb, hcj⟩, setf_ne _ _ hji]
      · intro j hj
        have hnr : ¬ ∃ c ∈ rest, p &&& (128 >>> c) ≠ 0 ∧
            (xc + c) % 64 + 64 * (yv % 32) = j := by
          rintro ⟨c, hc, hcb, hcj⟩
          exact hj ⟨c, List.mem_cons_of_mem _ hc, hcb, hcj⟩
        have hji : j ≠ (xc + c0) % 64 + 64 * (yv % 32) := by
          intro h
          exact hj ⟨c0, List.mem_cons_self _ _, hbit, h.symm⟩
        rw [H2 j hnr, setf_ne _ _ hji]
      · rw [H3, Bool.or_eq_true]
        constructor
        · rintro ((hfl | hi) | ⟨c, hc, hcb, hsc⟩)
          · exact Or.inl hfl
          · exact Or.inr ⟨c0, List.mem_cons_self _ _, hbit, hi⟩
          · rw [hsetrest c hc] at hsc
            exact Or.inr ⟨c, List.mem_cons_of_mem _ hc, hcb, hsc⟩
        · rintro (hfl | ⟨c, hc, hcb, hsc⟩)
          · exact Or.inl (Or.inl hfl)
          · rcases List.mem_cons.mp hc with rfl | hcr
            · exact Or.inl (Or.inr hsc)
            · rw [← hsetrest c hcr] at hsc
              exact Or.inr ⟨c, hcr, hcb, hsc⟩
    · simp only [drawBits, if_neg hbit]
      obtain ⟨H1, H2, H3⟩ := ih hnd' hlt' sc fl
      refine ⟨?_, ?_, ?_⟩
      · intro j hj
        obtain ⟨c, hc, hcb, hcj⟩ := hj
        rcases List.mem_cons.mp hc with rfl | hcr
        · exact absurd hcb hbit
        · exact H1 j ⟨c, hcr, hcb, hcj⟩
      · intro j hj
        refine H2 j ?_
        rintro ⟨c, hc, hcb, hcj⟩
        exact hj ⟨c, List.mem_cons_of_mem _ hc, hcb, hcj⟩
      · rw [H3]
        constructor
        · rintro (hfl | ⟨c, hc, hcb, hsc⟩)
          · exact Or.inl hfl
          · exact Or.inr ⟨c, List.mem_cons_of_mem _ hc, hcb, hsc⟩
        · rintro (hfl | ⟨c, hc, hcb, hsc⟩)
          · exact Or.inl hfl
          · rcases List.mem_cons.mp hc with rfl | hcr
            · exact absurd hcb hbit
            · exact Or.inr ⟨c, hcr, hcb, hsc⟩

/-- Characterization of the whole sprite draw: a pixel targeted by a set
bit of some row is toggled exactly once (targets of distinct rows lie in
distinct wrapped rows of the screen, and targets inside one row are
pairwise distinct), a pixel targeted by no set bit is untouched, and the
flipped flag ends true exactly when it started true or some set bit hit a
lit pixel. -/
theorem drawRows_spec (ram : Nat → Nat) (i xc yc : Nat) :
    ∀ (R : List Nat), R.Nodup → (∀ r ∈ R, r < 32) →
    ∀ (sc : Nat → Bool) (fl : Bool),
      (∀ j, (∃ r ∈ R, ∃ c, c < 8 ∧ ram (i + r) &&& (128 >>> c) ≠ 0 ∧
          (xc + c) % 64 + 64 * ((yc + r) % 32) = j) →
        (drawRows ram sc fl i xc yc R).1 j = ! sc j) ∧
      (∀ j, (¬ ∃ r ∈ R, ∃ c, c < 8 ∧ ram (i + r) &&& (128 >>> c) ≠ 0 ∧
          (xc + c) % 64 + 64 * ((yc + r) % 32) = j) →
        (drawRows ram sc fl i xc yc R).1 j = sc j) ∧
      ((drawRows ram sc fl i xc yc R).2 = true ↔ fl = true ∨
        ∃ r ∈ R, ∃ c, c < 8 ∧ ram (i + r) &&& (128 >>> c) ≠ 0 ∧
          sc ((xc + c) % 64 + 64 * ((yc + r) % 32)) = true) := by
  intro R
  induction R with
  | nil =>
    intro _ _ sc fl
    refine ⟨?_, ?_, ?_⟩
    · intro j hj
      obtain ⟨r, hr, _⟩ := hj
      exact absurd hr (List.not_mem_nil r)
    · intro j _
      rfl
    · simp [drawRows]
  | cons r0 rest ih =>
    intro hnd hlt sc fl
    have hnd' : rest.Nodup := (List.nodup_cons.mp hnd).2
    have hr0notin : r0 ∉ rest := (List.nodup_cons.mp hnd).1
    have hlt' : ∀ r ∈ rest, r < 32 := fun r hr => hlt r (List.mem_cons_of_mem _ hr)
    have hr032 : r0 < 32 := hlt r0 (List.mem_cons_self _ _)
    obtain ⟨B1, B2, B3⟩ := drawBits_spec (ram (i + r0)) xc (yc + r0) (List.range 8)
      (List.nodup_range 8) (fun c hc => List.mem_range.mp hc) sc fl
    have hdisj : ∀ r ∈ rest, ∀ c c' : Nat, c < 8 → c' < 8 →
        (xc + c) % 64 + 64 * ((yc + r) % 32) ≠ (xc + c') % 64 + 64 * ((yc + r0) % 32) := by
      intro r hr c c' hc8 hc8'
      have hne : r ≠ r0 := fun h => hr0notin (h ▸ hr)
      have hr32 : r < 32 := hlt' r hr
      omega
    simp only [drawRows]
    obtain ⟨H1, H2, H3⟩ := ih hnd' hlt'
      (drawBits sc fl (ram (i + r0)) xc (yc + r0) (List.range 8)).1
      (drawBits sc fl (ram (i + r0)) xc (yc + r0) (List.range 8)).2
    have hsc1 : ∀ r ∈ rest, ∀ c : Nat, c < 8 →
        (drawBits sc fl (ram (i + r0)) xc (yc + r0) (List.range 8)).1
            ((xc + c) % 64 + 64 * ((yc + r) % 32)) =
          sc ((xc + c) % 64 + 64 * ((yc + r) % 32)) := by
      intro r hr c hc8
      refine B2 _ ?_
      rintro ⟨c', hc', _, hcj'⟩
      exact hdisj r hr c c' hc8 (List.mem_range.mp hc') hcj'.symm
    refine ⟨?_, ?_, ?_⟩
    · intro j hj
      obtain ⟨r, hr, c, hc8, hcb, hcj⟩ := hj
      rcases List.mem_cons.mp hr with rfl | hrr
      · have h1 : (drawBits sc fl (ram (i + r)) xc (yc + r) (List.range 8)).1 j = ! sc j :=
          B1 j ⟨c, List.mem_range.mpr hc8, hcb, hcj⟩
        have hnr : ¬ ∃ r1 ∈ rest, ∃ c1, c1 < 8 ∧ ram (i + r1) &&& (128 >>> c1) ≠ 0 ∧
            (xc + c1) % 64 + 64 * ((yc + r1) % 32) = j := by
          rintro ⟨r1, hr1, c1, hc81, _, hcj1⟩
          exact hdisj r1 hr1 c1 c hc81 hc8 (hcj1.trans hcj.symm)
        rw [H2 j hnr, h1]
      · have hnh : ¬ ∃ c' ∈ List.range 8, ram (i + r0) &&& (128 >>> c') ≠ 0 ∧
            (xc + c') % 64 + 64 * ((yc + r0) % 32) = j := by
          rintro ⟨c', hc', _, hcj'⟩
          exact hdisj r hrr c c' hc8 (List.mem_range.mp hc') (hcj.trans hcj'.symm)
        rw [H1 j ⟨r, hrr, c, hc8, hcb, hcj⟩, B2 j hnh]
    · intro j hj
      have hnh : ¬ ∃ c ∈ List.range 8, ram (i + r0) &&& (128 >>> c) ≠ 0 ∧
          (xc + c) % 64 + 64 * ((yc + r0) % 32) = j := by
        rintro ⟨c, hc, hcb, hcj⟩
        exact hj ⟨r0, List.mem_cons_self _ _, c, List.mem_range.mp hc, hcb, hcj⟩
      have hnr : ¬ ∃ r ∈ rest, ∃ c, c < 8 ∧ ram (i + r) &&& (128 >>> c) ≠ 0 ∧
          (xc + c) % 64 + 64 * ((yc + r) % 32) = j := by
        rintro ⟨r, hr, c, hc8, hcb, hcj⟩
        exact hj ⟨r, List.mem_cons_of_mem _ hr, c, hc8, hcb, hcj⟩
      rw [H2 j hnr, B2 j hnh]
    · rw [H3, B3]
      constructor
      · rintro ((hfl | ⟨c, hc, hcb, hsc⟩) | ⟨r, hr, c, hc8, hcb, hsc⟩)
        · exact Or.inl hfl
        · exact Or.inr ⟨r0, List.mem_cons_self _ _, c, List.mem_range.mp hc, hcb, hsc⟩
        · rw [hsc1 r hr c hc8] at hsc
          exact Or.inr ⟨r, List.mem_cons_of_mem _ hr, c, hc8, hcb, hsc⟩
      · rintro (hfl | ⟨r, hr, c, hc8, hcb, hsc⟩)
        · exact Or.inl (Or.inl hfl)
        · rcases List.mem_cons.mp hr with rfl | hrr
          · exact Or.inl (Or.inr ⟨c, List.mem_range.mpr hc8, hcb, hsc⟩)
          · rw [← hsc1 r hrr c hc8] at hsc
            exact Or.inr ⟨r, hrr, c, hc8, hcb, hsc⟩

/-- Step lemma for the draw arm DXYN of execute. -/
theorem exec_draw (s : Chip8) (rng op : Nat) (hd : op / 4096 % 16 = 13) :
    execute s rng op = some { s with
      screen := (drawRows s.ram s.screen false s.i_reg (s.v_reg (op / 256 % 16))
        (s.v_reg (op / 16 % 16)) (List.range (op % 16))).1,
      v_reg := (setf s.v_reg 15 (if (drawRows s.ram s.screen false s.i_reg
        (s.v_reg (op / 256 % 16)) (s.v_reg (op / 16 % 16)) (List.range (op % 16))).2
        then 1 else 0)) } := by
  simp only [execute, hd]
  norm_num

/-- Full effect of one DXYN execution: the result exists, each pixel
targeted by a set sprite bit is toggled, untargeted pixels are unchanged,
VF is 1 exactly when a set bit hit a lit pixel (0 otherwise), and every
other component of the machine is untouched. -/
theorem draw_step_spec (s : Chip8) (rng op : Nat) (hd : op / 4096 % 16 = 13) :
    ∃ s', execute s rng op = some s' ∧
      (∀ j, (∃ r, r < op % 16 ∧ ∃ c, c < 8 ∧ s.ram (s.i_reg + r) &&& (128 >>> c) ≠ 0 ∧
          (s.v_reg (op / 256 % 16) + c) % 64 + 64 * ((s.v_reg (op / 16 % 16) + r) % 32) = j) →
        s'.screen j = ! s.screen j) ∧
      (∀ j, (¬ ∃ r, r < op % 16 ∧ ∃ c, c < 8 ∧ s.ram (s.i_reg + r) &&& (128 >>> c) ≠ 0 ∧
          (s.v_reg (op / 256 % 16) + c) % 64 + 64 * ((s.v_reg (op / 16 % 16) + r) % 32) = j) →
        s'.screen j = s.screen j) ∧
      (s'.v_reg 15 = 1 ↔ ∃ r, r < op % 16 ∧ ∃ c, c < 8 ∧
        s.ram (s.i_reg + r) &&& (128 >>> c) ≠ 0 ∧
        s.screen ((s.v_reg (op / 256 % 16) + c) % 64 +
          64 * ((s.v_reg (op / 16 % 16) + r) % 32)) = true) ∧
      (s'.v_reg 15 = 0 ∨ s'.v_reg 15 = 1) ∧
      s'.ram = s.ram ∧ s'.i_reg = s.i_reg ∧ s'.pc = s.pc ∧ s'.sp = s.sp ∧
      s'.stack = s.stack ∧ s'.keys = s.keys ∧ s'.dt = s.dt ∧ s'.st = s.st ∧
      (∀ rg, rg ≠ 15 → s'.v_reg rg = s.v_reg rg) := by
  obtain ⟨D1, D2, D3⟩ := drawRows_spec s.ram s.i_reg (s.v_reg (op / 256 % 16))
    (s.v_reg (op / 16 % 16)) (List.range (op % 16)) (List.nodup_range _)
    (fun r hr => by have hh := List.mem_range.mp hr; omega) s.screen false
  refine ⟨_, exec_draw s rng op hd, ?_, ?_, ?_, ?_, rfl, rfl, rfl, rfl, rfl, rfl, rfl, rfl, ?_⟩
  · intro j hj
    obtain ⟨r, hrn, c, hc8, hcb, hcj⟩ := hj
    exact D1 j ⟨r, List.mem_range.mpr hrn, c, hc8, hcb, hcj⟩
  · intro j hj
    refine D2 j ?_
    rintro ⟨r, hr, c, hc8, hcb, hcj⟩
    exact hj ⟨r, List.mem_range.mp hr, c, hc8, hcb, hcj⟩
  · dsimp only
    rw [setf_self]
    by_cases hfl : (drawRows s.ram s.screen false s.i_reg (s.v_reg (op / 256 % 16))
        (s.v_reg (op / 16 % 16)) (List.range (op % 16))).2 = true
    · rw [if_pos hfl]
      obtain ⟨r, hr, c, hc8, hcb, hsc⟩ := (D3.mp hfl).resolve_left (by simp)
      exact iff_of_true rfl ⟨r, List.mem_range.mp hr, c, hc8, hcb, hsc⟩
    · rw [if_neg hfl]
      refine iff_of_false (by norm_num) ?_
      rintro ⟨r, hrn, c, hc8, hcb, hsc⟩
      exact hfl (D3.mpr (Or.inr ⟨r, List.mem_range.mpr hrn, c, hc8, hcb, hsc⟩))
  · dsimp only
    rw [setf_self]
    by_cases hfl : (drawRows s.ram s.screen false s.i_reg (s.v_reg (op / 256 % 16))
        (s.v_reg (op / 16 % 16)) (List.range (op % 16))).2 = true
    · rw [if_pos hfl]
      exact Or.inr rfl
    · rw [if_neg hfl]
      exact Or.inl rfl
  · intro rg hrg
    dsimp only
    rw [setf_ne _ _ hrg]

/-- C3: executing the draw opcode DXYN XORs each set sprite bit into the
display buffer at pixel (Vx + col) mod 64, (Vy + row) mod 32 - wrapping
the coordinates, never clipping - so each targeted pixel is toggled and
every untargeted pixel is unchanged, and afterwards VF = 1 exactly when
some pixel went from lit to unlit during this draw (VF is 0 otherwise);
consequently, drawing the same 1-row one-bit sprite twice at the same
coordinates onto an initially unlit pixel leaves that pixel unlit and
sets VF = 1 on the second draw. -/
theorem C3_draw_xor_wrap_collision :
    (∀ (s : Chip8) (rng op : Nat), op / 4096 % 16 = 13 → s.i_reg + op % 16 ≤ 4096 →
      ∃ s', execute s rng op = some s' ∧
        (∀ j, (∃ r, r < op % 16 ∧ ∃ c, c < 8 ∧ s.ram (s.i_reg + r) &&& (128 >>> c) ≠ 0 ∧
            (s.v_reg (op / 256 % 16) + c) % 64 + 64 * ((s.v_reg (op / 16 % 16) + r) % 32) = j) →
          s'.screen j = ! s.screen j) ∧
        (∀ j, (¬ ∃ r, r < op % 16 ∧ ∃ c, c < 8 ∧ s.ram (s.i_reg + r) &&& (128 >>> c) ≠ 0 ∧
            (s.v_reg (op / 256 % 16) + c) % 64 + 64 * ((s.v_reg (op / 16 % 16) + r) % 32) = j) →
          s'.screen j = s.screen j) ∧
        (s'.v_reg 15 = 1 ↔ ∃ r, r < op % 16 ∧ ∃ c, c < 8 ∧
          s.ram (s.i_reg + r) &&& (128 >>> c) ≠ 0 ∧
          s.screen ((s.v_reg (op / 256 % 16) + c) % 64 +
            64 * ((s.v_reg (op / 16 % 16) + r) % 32)) = true) ∧
        (s'.v_reg 15 = 0 ∨ s'.v_reg 15 = 1) ∧
        s'.ram = s.ram ∧ s'.i_reg = s.i_reg ∧ s'.pc = s.pc ∧ s'.sp = s.sp ∧
        s'.stack = s.stack ∧ s'.keys = s.keys ∧ s'.dt = s.dt ∧ s'.st = s.st ∧
        (∀ rg, rg ≠ 15 → s'.v_reg rg = s.v_reg rg)) ∧
    (∀ (s : Chip8) (rng op : Nat), op / 4096 % 16 = 13 → op % 16 = 1 →
      op / 256 % 16 ≠ 15 → op / 16 % 16 ≠ 15 → s.i_reg + op % 16 ≤ 4096 →
      s.ram s.i_reg = 128 →
      s.screen (s.v_reg (op / 256 % 16) % 64 + 64 * (s.v_reg (op / 16 % 16) % 32)) = false →
      ∃ s1 s2, execute s rng op = some s1 ∧ execute s1 rng op = some s2 ∧
        s2.screen (s.v_reg (op / 256 % 16) % 64 +
          64 * (s.v_reg (op / 16 % 16) % 32)) = false ∧
        s2.v_reg 15 = 1) := by
  constructor
  · intro s rng op hd _
    exact draw_step_spec s rng op hd
  · intro s rng op hd h1 hx15 hy15 _ hsprite hoff
    obtain ⟨s1, he1, T1, U1, F1, Z1, hram, hireg, hpc, hsp, hstk, hkeys, hdt, hst, hvo⟩ :=
      draw_step_spec s rng op hd
    obtain ⟨s2, he2, T2, U2, F2, Z2, hram2, hireg2, hpc2, hsp2, hstk2, hkeys2, hdt2, hst2, hvo2⟩ :=
      draw_step_spec s1 rng op hd
    have hbit0 : s.ram (s.i_reg + 0) &&& (128 >>> 0) ≠ 0 := by
      rw [Nat.add_zero, hsprite]
      decide
    have htgt0 : (s.v_reg (op / 256 % 16) + 0) % 64 +
        64 * ((s.v_reg (op / 16 % 16) + 0) % 32) =
        s.v_reg (op / 256 % 16) % 64 + 64 * (s.v_reg (op / 16 % 16) % 32) := by
      norm_num
    have hs1 : s1.screen (s.v_reg (op / 256 % 16) % 64 +
        64 * (s.v_reg (op / 16 % 16) % 32)) = ! s.screen (s.v_reg (op / 256 % 16) % 64 +
        64 * (s.v_reg (op / 16 % 16) % 32)) :=
      T1 _ ⟨0, by omega, 0, by omega, hbit0, htgt0⟩
    rw [hoff] at hs1
    have hs1t : s1.screen (s.v_reg (op / 256 % 16) % 64 +
        64 * (s.v_reg (op / 16 % 16) % 32)) = true := hs1
    have hbit0' : s1.ram (s1.i_reg + 0) &&& (128 >>> 0) ≠ 0 := by
      rw [hram, hireg, Nat.add_zero, hsprite]
      decide
    have htgt0' : (s1.v_reg (op / 256 % 16) + 0) % 64 +
        64 * ((s1.v_reg (op / 16 % 16) + 0) % 32) =
        s.v_reg (op / 256 % 16) % 64 + 64 * (s.v_reg (op / 16 % 16) % 32) := by
      rw [hvo _ hx15, hvo _ hy15]
      norm_num
    have hs2 : s2.screen (s.v_reg (op / 256 % 16) % 64 +
        64 * (s.v_reg (op / 16 % 16) % 32)) = ! s1.screen (s.v_reg (op / 256 % 16) % 64 +
        64 * (s.v_reg (op / 16 % 16) % 32)) :=
      T2 _ ⟨0, by omega, 0, by omega, hbit0', htgt0'⟩
    have hs2f : s2.screen (s.v_reg (op / 256 % 16) % 64 +
        64 * (s.v_reg (op / 16 % 16) % 32)) = false := by
      rw [hs2, hs1t]
      rfl
    have hvf : s2.v_reg 15 = 1 :=
      F2.mpr ⟨0, by omega, 0, by omega, hbit0', by rw [htgt0']; exact hs1t⟩
    exact ⟨s1, s2, he1, he2, hs2f, hvf⟩

/-- Witness for C3 on the machine w3 (one-bit sprite row 0x80 at I = 0x300)
with opcode D011: both the general draw description and the double-draw
collision consequence, at concrete inputs. -/
theorem C3_draw_xor_wrap_collision_witness :
    (∃ s', execute w3 0 53265 = some s' ∧
      (∀ j, (∃ r, r < 53265 % 16 ∧ ∃ c, c < 8 ∧ w3.ram (w3.i_reg + r) &&& (128 >>> c) ≠ 0 ∧
          (w3.v_reg (53265 / 256 % 16) + c) % 64 +
            64 * ((w3.v_reg (53265 / 16 % 16) + r) % 32) = j) →
        s'.screen j = ! w3.screen j) ∧
      (∀ j, (¬ ∃ r, r < 53265 % 16 ∧ ∃ c, c < 8 ∧ w3.ram (w3.i_reg + r) &&& (128 >>> c) ≠ 0 ∧
          (w3.v_reg (53265 / 256 % 16) + c) % 64 +
            64 * ((w3.v_reg (53265 / 16 % 16) + r) % 32) = j) →
        s'.screen j = w3.screen j) ∧
      (s'.v_reg 15 = 1 ↔ ∃ r, r < 53265 % 16 ∧ ∃ c, c < 8 ∧
        w3.ram (w3.i_reg + r) &&& (128 >>> c) ≠ 0 ∧
        w3.screen ((w3.v_reg (53265 / 256 % 16) + c) % 64 +
          64 * ((w3.v_reg (53265 / 16 % 16) + r) % 32)) = true) ∧
      (s'.v_reg 15 = 0 ∨ s'.v_reg 15 = 1) ∧
      s'.ram = w3.ram ∧ s'.i_reg = w3.i_reg ∧ s'.pc = w3.pc ∧ s'.sp = w3.sp ∧
      s'.stack = w3.stack ∧ s'.keys = w3.keys ∧ s'.dt = w3.dt ∧ s'.st = w3.st ∧
      (∀ rg, rg ≠ 15 → s'.v_reg rg = w3.v_reg rg)) ∧
    (∃ s1 s2, execute w3 0 53265 = some s1 ∧ execute s1 0 53265 = some s2 ∧
      s2.screen (w3.v_reg (53265 / 256 % 16) % 64 +
        64 * (w3.v_reg (53265 / 16 % 16) % 32)) = false ∧
      s2.v_reg 15 = 1) :=
  ⟨C3_draw_xor_wrap_collision.1 w3 0 53265 (by decide) (by decide),
   C3_draw_xor_wrap_collision.2 w3 0 53265 (by decide) (by decide) (by decide) (by decide)
     (by decide) (by decide) (by decide)⟩
